import Mathlib

/-!
Verification of the Pictionary game core (GameService, WordService scoring
helpers, TimerService) against its natural-language specification.

The definitions below are a shallow embedding of the TypeScript sources:

* `GameService` (sessions, `initializeGame`, `startGame`, `selectWord`,
  `submitGuess`, `endRound`, `updateGameState`, `startNewRound`,
  `calculateGuessPoints`, `calculateDrawerPoints`),
* `WordService.validateGuess`,
* `TimerService` (`startTimer`, `stopTimer` and the per-second interval
  callback).

Modelling conventions:

* JavaScript numbers are modelled as `Int` (all quantities involved are
  integers in every reachable run); the one genuine division,
  `timeRemaining / maxTime` in `calculateGuessPoints`, is modelled as exact
  rational division followed by `Int.floor`, matching
  `Math.floor((timeRemaining / maxTime) * 50)`.  Division by zero, which in
  JavaScript produces a non-finite number (`Infinity`/`NaN`), is modelled by
  returning `none`.
* JavaScript object aliasing is modelled explicitly.  In `startNewRound` the
  source stores the *pre-rebuild* player object in `currentDrawer` while the
  `players` array receives freshly spread copies; consequently the
  `session.currentDrawer.score += 50` mutation in `submitGuess` is visible
  only through the `currentDrawer` field, never through the `players` list.
  The pure model reproduces exactly this observable behaviour.
* Fallible operations (`throw new Error(...)`) return `Except GameError`.
* Nondeterministic collaborators (`wordService.getRandomWord`) become
  universally quantified parameters, and the timer's `setInterval` callback
  becomes an explicit step function on the timer store.
-/

namespace Pictionary

/-- Difficulty tiers, from `types`/`GameModels`. -/
inductive Difficulty where
  | easy
  | medium
  | hard
deriving DecidableEq, Repr

/-- Game lifecycle states, from the `GameState` enum. -/
inductive GameState where
  | waiting
  | drawing
  | guessing
  | correctGuess
  | timeUp
  | gameOver
deriving DecidableEq, Repr

/-- A player record: id, display name, cumulative score, drawing flag. -/
structure Player where
  id : String
  name : String
  score : Int
  isDrawing : Bool
deriving DecidableEq, Repr

/-- A word drawn from the catalog. -/
structure GameWord where
  id : String
  word : String
  difficulty : Difficulty
  category : String
  hints : List String
deriving DecidableEq, Repr

/-- Per-game configuration. -/
structure GameConfig where
  maxTime : Int
  maxRounds : Int
  difficulty : Difficulty
  enableHints : Bool
deriving DecidableEq, Repr

/-- The aggregate session record stored by `GameService.sessions`. -/
structure GameSession where
  id : String
  players : List Player
  currentWord : Option GameWord
  currentDrawer : Option Player
  state : GameState
  timeRemaining : Int
  maxTime : Int
  round : Int
  maxRounds : Int
deriving DecidableEq, Repr

/-- The error conditions raised (`throw new Error(...)`) by the services. -/
inductive GameError where
  | insufficientPlayers
  | sessionNotFound
  | invalidStateTransition
  | noActiveWord
  | playerNotFound
  | drawerCannotGuess
  | noPlayersAvailable
  | invalidDuration
deriving DecidableEq, Repr

instance : Inhabited GameSession :=
  ⟨{ id := "", players := [], currentWord := none, currentDrawer := none,
     state := GameState.waiting, timeRemaining := 0, maxTime := 0,
     round := 0, maxRounds := 0 }⟩

deriving instance DecidableEq for Except

/-- JavaScript `String.prototype.toLowerCase`, modelled character-wise. -/
def jsToLower (s : String) : String := ⟨s.data.map Char.toLower⟩

/-- JavaScript `String.prototype.trim`: strip leading and trailing
whitespace. -/
def jsTrim (s : String) : String :=
  ⟨((s.data.dropWhile Char.isWhitespace).reverse.dropWhile
      Char.isWhitespace).reverse⟩

/-- `WordService.validateGuess`: reject empty strings (JS falsiness), then
compare the `toLowerCase().trim()` normalisations for equality. -/
def validateGuess (guess targetWord : String) : Bool :=
  if guess = "" ∨ targetWord = "" then false
  else jsTrim (jsToLower guess) == jsTrim (jsToLower targetWord)

/-- The bonus formula of `GameService.calculateGuessPoints`:
`basePoints + Math.floor((timeRemaining / maxTime) * 50)`.  For every
nonzero divisor, the floor of the exact rational quotient is floor division
(`Int.fdiv`); the theorem `guessPointsFor_eq_floor` below establishes the
correspondence with the source formula.  `submitGuess` applies this in
contexts where `maxTime ≠ 0` (`Int.fdiv _ 0 = 0` in Lean, whereas JavaScript
division by zero would produce a non-finite score; `calculateGuessPoints`
models that case explicitly). -/
def guessPointsFor (timeRemaining maxTime : Int) : Int :=
  100 + (timeRemaining * 50).fdiv maxTime

/-- `GameService.calculateGuessPoints`, with `none` standing for the
non-finite JavaScript result when `maxTime = 0` (division by zero). -/
def calculateGuessPoints (timeRemaining maxTime : Int) : Option Int :=
  if maxTime = 0 then none else some (guessPointsFor timeRemaining maxTime)

/-- Floor division agrees with negating both operands. -/
theorem fdiv_neg_neg (a b : Int) : (-a).fdiv (-b) = a.fdiv b := by
  rcases a with (_ | m) | m <;> rcases b with (_ | n) | n <;>
    first
      | rfl
      | simp only [show -Int.ofNat 0 = (0 : Int) from rfl,
          show Int.ofNat 0 = (0 : Int) from rfl, neg_zero, Int.fdiv_zero]

/-- `Int.fdiv` is the floor of the exact rational quotient, for every
nonzero divisor. -/
theorem fdiv_eq_floor_div (a b : Int) (hb : b ≠ 0) :
    a.fdiv b = ⌊(a : ℚ) / (b : ℚ)⌋ := by
  have key : ∀ c d : Int, 0 < d → c.fdiv d = ⌊(c : ℚ) / (d : ℚ)⌋ := by
    intro c d hd
    have hdn : ((d.toNat : ℤ)) = d := Int.toNat_of_nonneg hd.le
    have h1 : c.fdiv d = c / d := Int.fdiv_eq_ediv c hd.le
    have h2 : ⌊((c : ℚ) / ((d.toNat : ℕ) : ℚ))⌋ = c / ((d.toNat : ℕ) : ℤ) :=
      Rat.floor_intCast_div_natCast c d.toNat
    have h3 : (((d.toNat : ℕ) : ℚ)) = (d : ℚ) := by exact_mod_cast hdn
    rw [h1, ← hdn, ← h2, h3, hdn]
  rcases lt_trichotomy b 0 with hneg | h0 | hpos
  · have h1 : a.fdiv b = (-a).fdiv (-b) := (fdiv_neg_neg a b).symm
    have h2 : (a : ℚ) / (b : ℚ) = ((-a : ℤ) : ℚ) / ((-b : ℤ) : ℚ) := by
      push_cast; rw [neg_div_neg_eq]
    rw [h1, h2, key (-a) (-b) (by omega)]
  · exact absurd h0 hb
  · exact key a b hpos

/-- Faithfulness of `guessPointsFor` to the source formula
`100 + Math.floor((timeRemaining / maxTime) * 50)` under exact (rational)
number semantics, for every nonzero `maxTime`. -/
theorem guessPointsFor_eq_floor (timeRemaining maxTime : Int)
    (h : maxTime ≠ 0) :
    guessPointsFor timeRemaining maxTime =
      100 + ⌊(timeRemaining : ℚ) / (maxTime : ℚ) * 50⌋ := by
  have h1 : (timeRemaining : ℚ) / (maxTime : ℚ) * 50 =
      ((timeRemaining * 50 : ℤ) : ℚ) / (maxTime : ℚ) := by
    push_cast; ring
  rw [guessPointsFor, fdiv_eq_floor_div _ _ h, h1]

/-- `GameService.calculateDrawerPoints`: fixed 50 points. -/
def calculateDrawerPoints : Int := 50

/-- `GameService.initializeGame`: requires at least 2 players, resets every
player's score and drawing flag, and creates a `WAITING` round-0 session.
The generated session id is passed in as a parameter. -/
def initializeGame (config : GameConfig) (players : List Player)
    (sessionId : String) : Except GameError GameSession :=
  if players.length < 2 then
    Except.error GameError.insufficientPlayers
  else
    Except.ok
      { id := sessionId
        players := players.map fun p => { p with score := 0, isDrawing := false }
        currentWord := none
        currentDrawer := none
        state := GameState.waiting
        timeRemaining := config.maxTime
        maxTime := config.maxTime
        round := 0
        maxRounds := config.maxRounds }

/-- `GameService.startNewRound`: advances the round counter, picks
`players[(nextRound - 1) % players.length]` as the next drawer, rebuilds the
player list with fresh records carrying the new `isDrawing` flags, and resets
word/time/state.  Faithful aliasing note: `currentDrawer` receives the
*pre-rebuild* player record (`session.players[drawerIndex]`), not the rebuilt
entry of the new list.  `%` is JavaScript's remainder (sign of the dividend,
`Int.tmod`); an out-of-range index (empty player list) yields `undefined` in
the source and hence the `noPlayersAvailable` error; `arrayGet` models the
JavaScript array subscript (`undefined` for negative or out-of-range
indices). -/
def arrayGet (players : List Player) (i : Int) : Option Player :=
  if 0 ≤ i then players.get? i.toNat else none

def startNewRound (session : GameSession) : Except GameError GameSession :=
  match arrayGet session.players
      ((session.round + 1 - 1).tmod (session.players.length : Int)) with
  | none => Except.error GameError.noPlayersAvailable
  | some nextDrawer =>
      Except.ok
        { session with
          players := session.players.map fun p =>
            { p with isDrawing := p.id == nextDrawer.id }
          currentDrawer := some nextDrawer
          round := session.round + 1
          state := GameState.drawing
          timeRemaining := session.maxTime
          currentWord := none }

/-- `GameService.startGame`: only legal from `WAITING`; then starts round 1. -/
def startGame (session : GameSession) : Except GameError GameSession :=
  if session.state ≠ GameState.waiting then
    Except.error GameError.invalidStateTransition
  else
    startNewRound session

/-- `GameService.selectWord`: stores the word obtained from the word service
(passed here as a parameter) and moves the state to `DRAWING`.  The source
performs no state check whatsoever — only session existence. -/
def selectWord (session : GameSession) (word : GameWord) : GameSession :=
  { session with currentWord := some word, state := GameState.drawing }

/-- Mutation of the first player whose `id` matches (JavaScript
`players.find(...)` followed by `player.score += pts`). -/
def bumpFirst (players : List Player) (playerId : String) (pts : Int) :
    List Player :=
  match players with
  | [] => []
  | p :: rest =>
      if p.id == playerId then { p with score := p.score + pts } :: rest
      else p :: bumpFirst rest playerId pts

/-- The drawer guard of `submitGuess`:
`session.currentDrawer && session.currentDrawer.id === playerId`. -/
def isDrawerGuess (session : GameSession) (playerId : String) : Bool :=
  match session.currentDrawer with
  | some d => d.id == playerId
  | none => false

/-- `GameService.submitGuess`.  On a correct guess the guesser's entry in
`players` is mutated in place (then the array is shallow-copied), the
*detached* `currentDrawer` record is awarded the drawer points, and the state
becomes `CORRECT_GUESS`; on a wrong guess nothing is written back.  Returns
the correctness flag together with the session stored after the call. -/
def submitGuess (session : GameSession) (playerId guess : String) :
    Except GameError (Bool × GameSession) :=
  if ¬(session.state = GameState.drawing ∨ session.state = GameState.guessing) then
    Except.error GameError.invalidStateTransition
  else
    match session.currentWord with
    | none => Except.error GameError.noActiveWord
    | some w =>
        match session.players.find? (fun p => p.id == playerId) with
        | none => Except.error GameError.playerNotFound
        | some _ =>
            if isDrawerGuess session playerId then
              Except.error GameError.drawerCannotGuess
            else if validateGuess guess w.word then
              Except.ok (true,
                { session with
                  players := bumpFirst session.players playerId
                    (guessPointsFor session.timeRemaining session.maxTime)
                  currentDrawer := session.currentDrawer.map fun d =>
                    { d with score := d.score + calculateDrawerPoints }
                  state := GameState.correctGuess })
            else
              Except.ok (false, session)

/-- `GameService.endRound`: at `round >= maxRounds` the session becomes
`GAME_OVER`; otherwise the next round is started. -/
def endRound (session : GameSession) : Except GameError GameSession :=
  if session.round ≥ session.maxRounds then
    Except.ok { session with state := GameState.gameOver }
  else
    startNewRound session

/-- `GameService.updateGameState`: unconditional state overwrite. -/
def updateGameState (session : GameSession) (newState : GameState) :
    GameSession :=
  { session with state := newState }

/-- Sessions reachable for a fixed session id through the engine operations
(`initializeGame`, `startGame`, `selectWord`, `submitGuess`, `endRound`,
`updateGameState`), starting from `initializeGame config players sessionId`.
`selectWord` may deliver any word (the word service draws randomly) and
`submitGuess` may be called with any player id and guess. -/
inductive ReachableFrom (config : GameConfig) (players : List Player)
    (sessionId : String) : GameSession → Prop where
  | init (s : GameSession)
      (h : initializeGame config players sessionId = Except.ok s) :
      ReachableFrom config players sessionId s
  | startGame_step (s s' : GameSession)
      (hr : ReachableFrom config players sessionId s)
      (h : startGame s = Except.ok s') :
      ReachableFrom config players sessionId s'
  | selectWord_step (s : GameSession) (w : GameWord)
      (hr : ReachableFrom config players sessionId s) :
      ReachableFrom config players sessionId (selectWord s w)
  | submitGuess_step (s : GameSession) (pid g : String) (b : Bool)
      (s' : GameSession)
      (hr : ReachableFrom config players sessionId s)
      (h : submitGuess s pid g = Except.ok (b, s')) :
      ReachableFrom config players sessionId s'
  | endRound_step (s s' : GameSession)
      (hr : ReachableFrom config players sessionId s)
      (h : endRound s = Except.ok s') :
      ReachableFrom config players sessionId s'
  | updateGameState_step (s : GameSession) (st : GameState)
      (hr : ReachableFrom config players sessionId s) :
      ReachableFrom config players sessionId (updateGameState s st)

/-! ### Characterisation lemmas for the engine operations -/

theorem arrayGet_mem {ps : List Player} {i : Int} {d : Player}
    (h : arrayGet ps i = some d) : d ∈ ps := by
  unfold arrayGet at h
  split at h
  · exact List.get?_mem h
  · cases h

theorem initializeGame_ok_elim {cfg : GameConfig} {ps : List Player}
    {sid : String} {s : GameSession}
    (h : initializeGame cfg ps sid = Except.ok s) :
    2 ≤ ps.length ∧
      s = { id := sid
            players := ps.map fun p => { p with score := 0, isDrawing := false }
            currentWord := none
            currentDrawer := none
            state := GameState.waiting
            timeRemaining := cfg.maxTime
            maxTime := cfg.maxTime
            round := 0
            maxRounds := cfg.maxRounds } := by
  unfold initializeGame at h
  split at h
  · cases h
  · next hlt =>
      injection h with h'
      exact ⟨by omega, h'.symm⟩

theorem startNewRound_ok_elim {s s' : GameSession}
    (h : startNewRound s = Except.ok s') :
    ∃ d, arrayGet s.players
        ((s.round + 1 - 1).tmod (s.players.length : Int)) = some d ∧
      s' = { s with
        players := s.players.map fun p => { p with isDrawing := p.id == d.id }
        currentDrawer := some d
        round := s.round + 1
        state := GameState.drawing
        timeRemaining := s.maxTime
        currentWord := none } := by
  unfold startNewRound at h
  cases hm : arrayGet s.players
      ((s.round + 1 - 1).tmod (s.players.length : Int)) with
  | none => rw [hm] at h; cases h
  | some d =>
      rw [hm] at h
      injection h with h'
      exact ⟨d, rfl, h'.symm⟩

theorem startGame_ok_elim {s s' : GameSession}
    (h : startGame s = Except.ok s') :
    s.state = GameState.waiting ∧ startNewRound s = Except.ok s' := by
  unfold startGame at h
  split at h
  · cases h
  · next hcond => exact ⟨by push_neg at hcond; exact hcond, h⟩

theorem endRound_ok_elim {s s' : GameSession}
    (h : endRound s = Except.ok s') :
    (s.round ≥ s.maxRounds ∧ s' = { s with state := GameState.gameOver }) ∨
      startNewRound s = Except.ok s' := by
  unfold endRound at h
  split at h
  · next hge =>
      injection h with h'
      exact Or.inl ⟨hge, h'.symm⟩
  · exact Or.inr h

theorem submitGuess_ok_elim {s : GameSession} {pid g : String} {b : Bool}
    {s' : GameSession} (h : submitGuess s pid g = Except.ok (b, s')) :
    (b = false ∧ s' = s) ∨
      (b = true ∧
        s' = { s with
          players := bumpFirst s.players pid
            (guessPointsFor s.timeRemaining s.maxTime)
          currentDrawer := s.currentDrawer.map fun d =>
            { d with score := d.score + calculateDrawerPoints }
          state := GameState.correctGuess }) := by
  unfold submitGuess at h
  split at h
  · cases h
  · split at h
    · cases h
    · split at h
      · cases h
      · split at h
        · cases h
        · split at h
          · injection h with h'
            have hb : b = true := congrArg Prod.fst h'.symm
            have hs : s' = _ := congrArg Prod.snd h'.symm
            exact Or.inr ⟨hb, hs⟩
          · injection h with h'
            have hb : b = false := congrArg Prod.fst h'.symm
            have hs : s' = s := congrArg Prod.snd h'.symm
            exact Or.inl ⟨hb, hs⟩

/-! ### Preservation lemmas -/

theorem bumpFirst_map_id (ps : List Player) (pid : String) (k : Int) :
    (bumpFirst ps pid k).map Player.id = ps.map Player.id := by
  induction ps with
  | nil => rfl
  | cons p rest ih =>
      by_cases h : (p.id == pid) = true <;>
        simp [bumpFirst, h, ih]

theorem bumpFirst_countP_isDrawing (ps : List Player) (pid : String) (k : Int) :
    (bumpFirst ps pid k).countP (fun p => p.isDrawing) =
      ps.countP (fun p => p.isDrawing) := by
  induction ps with
  | nil => rfl
  | cons p rest ih =>
      by_cases h : (p.id == pid) = true <;>
        simp [bumpFirst, h, ih, List.countP_cons]

/-- Every reachable session carries exactly the initial players' ids, in
join order. -/
theorem reachable_players_id {cfg : GameConfig} {ps : List Player}
    {sid : String} {s : GameSession} (h : ReachableFrom cfg ps sid s) :
    s.players.map Player.id = ps.map Player.id := by
  induction h with
  | init s h0 =>
      obtain ⟨-, rfl⟩ := initializeGame_ok_elim h0
      simp [List.map_map]
  | startGame_step s s' hr h ih =>
      obtain ⟨-, hsn⟩ := startGame_ok_elim h
      obtain ⟨d, -, rfl⟩ := startNewRound_ok_elim hsn
      simpa [List.map_map] using ih
  | selectWord_step s w hr ih => exact ih
  | submitGuess_step s pid g b s' hr h ih =>
      rcases submitGuess_ok_elim h with ⟨-, rfl⟩ | ⟨-, rfl⟩
      · exact ih
      · rw [show ({ s with
            players := bumpFirst s.players pid
              (guessPointsFor s.timeRemaining s.maxTime)
            currentDrawer := s.currentDrawer.map fun d =>
              { d with score := d.score + calculateDrawerPoints }
            state := GameState.correctGuess } : GameSession).players =
            bumpFirst s.players pid
              (guessPointsFor s.timeRemaining s.maxTime) from rfl]
        rw [bumpFirst_map_id]
        exact ih
  | endRound_step s s' hr h ih =>
      rcases endRound_ok_elim h with ⟨-, rfl⟩ | hsn
      · exact ih
      · obtain ⟨d, -, rfl⟩ := startNewRound_ok_elim hsn
        simpa [List.map_map] using ih
  | updateGameState_step s st hr ih => exact ih

/-- Every reachable session has a nonnegative round counter. -/
theorem reachable_round_nonneg {cfg : GameConfig} {ps : List Player}
    {sid : String} {s : GameSession} (h : ReachableFrom cfg ps sid s) :
    0 ≤ s.round := by
  induction h with
  | init s h0 =>
      obtain ⟨-, rfl⟩ := initializeGame_ok_elim h0
      exact le_refl 0
  | startGame_step s s' hr h ih =>
      obtain ⟨-, hsn⟩ := startGame_ok_elim h
      obtain ⟨d, -, rfl⟩ := startNewRound_ok_elim hsn
      show (0 : Int) ≤ s.round + 1
      omega
  | selectWord_step s w hr ih => exact ih
  | submitGuess_step s pid g b s' hr h ih =>
      rcases submitGuess_ok_elim h with ⟨-, rfl⟩ | ⟨-, rfl⟩ <;> exact ih
  | endRound_step s s' hr h ih =>
      rcases endRound_ok_elim h with ⟨-, rfl⟩ | hsn
      · exact ih
      · obtain ⟨d, -, rfl⟩ := startNewRound_ok_elim hsn
        show (0 : Int) ≤ s.round + 1
        omega
  | updateGameState_step s st hr ih => exact ih

/-- Session length is that of the initial player list. -/
theorem reachable_players_length {cfg : GameConfig} {ps : List Player}
    {sid : String} {s : GameSession} (h : ReachableFrom cfg ps sid s) :
    s.players.length = ps.length := by
  have h2 := reachable_players_id h
  calc s.players.length = (s.players.map Player.id).length :=
        (List.length_map _ _).symm
    _ = (ps.map Player.id).length := by rw [h2]
    _ = ps.length := List.length_map _ _

/-- C2 (amended form, proved below as the claim theorem): along reachable
sessions, a non-null `currentDrawer` always shares its id with a stored
player.  Stated here as a reusable induction. -/
theorem drawer_id_invariant {cfg : GameConfig} {ps : List Player}
    {sid : String} {s : GameSession} (h : ReachableFrom cfg ps sid s) :
    ∀ d, s.currentDrawer = some d → d.id ∈ s.players.map Player.id := by
  induction h with
  | init s h0 =>
      obtain ⟨-, rfl⟩ := initializeGame_ok_elim h0
      intro d hd
      cases hd
  | startGame_step s s' hr h ih =>
      obtain ⟨-, hsn⟩ := startGame_ok_elim h
      obtain ⟨d0, hget, rfl⟩ := startNewRound_ok_elim hsn
      intro d hd
      have hd' : some d0 = some d := hd
      injection hd' with hdd
      subst hdd
      have hmem : d0 ∈ s.players := arrayGet_mem hget
      have hmem2 : d0.id ∈ s.players.map Player.id :=
        List.mem_map_of_mem Player.id hmem
      simpa [List.map_map] using hmem2
  | selectWord_step s w hr ih => exact ih
  | submitGuess_step s pid g b s' hr h ih =>
      rcases submitGuess_ok_elim h with ⟨-, rfl⟩ | ⟨-, rfl⟩
      · exact ih
      · intro d hd
        have hd' : s.currentDrawer.map (fun d =>
            { d with score := d.score + calculateDrawerPoints }) = some d := hd
        rcases Option.map_eq_some'.mp hd' with ⟨d0, hd0, hfd⟩
        have hid : d.id = d0.id := by rw [← hfd]
        have hmem := ih d0 hd0
        show d.id ∈ (bumpFirst s.players pid
          (guessPointsFor s.timeRemaining s.maxTime)).map Player.id
        rw [bumpFirst_map_id, hid]
        exact hmem
  | endRound_step s s' hr h ih =>
      rcases endRound_ok_elim h with ⟨-, rfl⟩ | hsn
      · exact ih
      · obtain ⟨d0, hget, rfl⟩ := startNewRound_ok_elim hsn
        intro d hd
        have hd' : some d0 = some d := hd
        injection hd' with hdd
        subst hdd
        have hmem : d0 ∈ s.players := arrayGet_mem hget
        have hmem2 : d0.id ∈ s.players.map Player.id :=
          List.mem_map_of_mem Player.id hmem
        simpa [List.map_map] using hmem2
  | updateGameState_step s st hr ih => exact ih

/-- C5 (amended form): with pairwise-distinct player ids, the number of
players flagged `isDrawing` is `0` while `round = 0` and exactly `1` once a
round has started.  Stated here as a reusable induction. -/
theorem isDrawing_count_invariant {cfg : GameConfig} {ps : List Player}
    {sid : String} {s : GameSession}
    (hnd : (ps.map Player.id).Nodup) (h : ReachableFrom cfg ps sid s) :
    s.players.countP (fun p => p.isDrawing) =
      if s.round = 0 then 0 else 1 := by
  induction h with
  | init s h0 =>
      obtain ⟨-, rfl⟩ := initializeGame_ok_elim h0
      simp [List.countP_map, Function.comp]
  | startGame_step s s' hr h ih =>
      obtain ⟨-, hsn⟩ := startGame_ok_elim h
      obtain ⟨d, hget, rfl⟩ := startNewRound_ok_elim hsn
      have hnn : 0 ≤ s.round := reachable_round_nonneg hr
      have hne : ¬(s.round + 1 = 0) := by omega
      show (s.players.map fun p =>
          { p with isDrawing := p.id == d.id }).countP (fun p => p.isDrawing) =
        if s.round + 1 = 0 then 0 else 1
      rw [if_neg hne, List.countP_map]
      have hmem : d.id ∈ s.players.map Player.id :=
        List.mem_map_of_mem Player.id (arrayGet_mem hget)
      rw [reachable_players_id hr] at hmem
      have hcnt : (s.players.map Player.id).count d.id = 1 := by
        rw [reachable_players_id hr]
        exact List.count_eq_one_of_mem hnd hmem
      calc s.players.countP
            ((fun p => p.isDrawing) ∘ fun p => { p with isDrawing := p.id == d.id })
          = (s.players.map Player.id).countP (fun x => x == d.id) :=
            (List.countP_map (fun x => x == d.id) Player.id s.players).symm
        _ = (s.players.map Player.id).count d.id :=
            (List.count_eq_countP _ _).symm
        _ = 1 := hcnt
  | selectWord_step s w hr ih => exact ih
  | submitGuess_step s pid g b s' hr h ih =>
      rcases submitGuess_ok_elim h with ⟨-, rfl⟩ | ⟨-, rfl⟩
      · exact ih
      · show (bumpFirst s.players pid
            (guessPointsFor s.timeRemaining s.maxTime)).countP
            (fun p => p.isDrawing) = if s.round = 0 then 0 else 1
        rw [bumpFirst_countP_isDrawing]
        exact ih
  | endRound_step s s' hr h ih =>
      rcases endRound_ok_elim h with ⟨-, rfl⟩ | hsn
      · exact ih
      · obtain ⟨d, hget, rfl⟩ := startNewRound_ok_elim hsn
        have hnn : 0 ≤ s.round := reachable_round_nonneg hr
        have hne : ¬(s.round + 1 = 0) := by omega
        show (s.players.map fun p =>
            { p with isDrawing := p.id == d.id }).countP (fun p => p.isDrawing) =
          if s.round + 1 = 0 then 0 else 1
        rw [if_neg hne, List.countP_map]
        have hmem : d.id ∈ s.players.map Player.id :=
          List.mem_map_of_mem Player.id (arrayGet_mem hget)
        rw [reachable_players_id hr] at hmem
        have hcnt : (s.players.map Player.id).count d.id = 1 := by
          rw [reachable_players_id hr]
          exact List.count_eq_one_of_mem hnd hmem
        calc s.players.countP
              ((fun p => p.isDrawing) ∘ fun p => { p with isDrawing := p.id == d.id })
            = (s.players.map Player.id).countP (fun x => x == d.id) :=
              (List.countP_map (fun x => x == d.id) Player.id s.players).symm
          _ = (s.players.map Player.id).count d.id :=
              (List.count_eq_countP _ _).symm
          _ = 1 := hcnt
  | updateGameState_step s st hr ih => exact ih

/-- The index chosen by `startNewRound`, converted to `Nat` arithmetic. -/
theorem startNewRound_index {s : GameSession} {d : Player}
    (hnn : 0 ≤ s.round)
    (hget : arrayGet s.players
      ((s.round + 1 - 1).tmod (s.players.length : Int)) = some d) :
    s.players.get? (s.round.toNat % s.players.length) = some d := by
  have hidx : s.round + 1 - 1 = s.round := by ring
  rw [hidx] at hget
  have htm : s.round.tmod (s.players.length : Int) =
      ((s.round.toNat % s.players.length : Nat) : Int) := by
    conv =>
      lhs
      rw [← Int.toNat_of_nonneg hnn]
    exact (Int.ofNat_tmod _ _).symm
  rw [htm] at hget
  unfold arrayGet at hget
  split at hget
  · rw [Int.toNat_natCast] at hget
    exact hget
  · cases hget

/-- C7 invariant: once a round has started, the stored drawer's id sits at
position `(round - 1) % players.length` of the original join-order id list.
Stated here as a reusable induction. -/
theorem drawer_rotation_invariant {cfg : GameConfig} {ps : List Player}
    {sid : String} {s : GameSession} (h : ReachableFrom cfg ps sid s) :
    1 ≤ s.round → ∃ d, s.currentDrawer = some d ∧
      (ps.map Player.id).get? ((s.round - 1).toNat % ps.length) =
        some d.id := by
  induction h with
  | init s h0 =>
      obtain ⟨-, rfl⟩ := initializeGame_ok_elim h0
      intro h1
      have h1' : (1 : Int) ≤ 0 := h1
      omega
  | startGame_step s s' hr h ih =>
      obtain ⟨-, hsn⟩ := startGame_ok_elim h
      obtain ⟨d, hget, rfl⟩ := startNewRound_ok_elim hsn
      intro _
      refine ⟨d, rfl, ?_⟩
      have hnn : 0 ≤ s.round := reachable_round_nonneg hr
      have hget2 := startNewRound_index hnn hget
      have hmap : (s.players.map Player.id).get?
          (s.round.toNat % s.players.length) = some d.id := by
        rw [List.get?_map, hget2]
        rfl
      rw [reachable_players_id hr, reachable_players_length hr] at hmap
      show (ps.map Player.id).get? ((s.round + 1 - 1).toNat % ps.length) =
        some d.id
      have hidx : s.round + 1 - 1 = s.round := by ring
      rw [hidx]
      exact hmap
  | selectWord_step s w hr ih => exact ih
  | submitGuess_step s pid g b s' hr h ih =>
      rcases submitGuess_ok_elim h with ⟨-, rfl⟩ | ⟨-, rfl⟩
      · exact ih
      · intro h1
        obtain ⟨d, hd, hrot⟩ := ih h1
        refine ⟨{ d with score := d.score + calculateDrawerPoints }, ?_, hrot⟩
        show s.currentDrawer.map (fun d =>
          { d with score := d.score + calculateDrawerPoints }) =
          some { d with score := d.score + calculateDrawerPoints }
        rw [hd]
        rfl
  | endRound_step s s' hr h ih =>
      rcases endRound_ok_elim h with ⟨-, rfl⟩ | hsn
      · exact ih
      · obtain ⟨d, hget, rfl⟩ := startNewRound_ok_elim hsn
        intro _
        refine ⟨d, rfl, ?_⟩
        have hnn : 0 ≤ s.round := reachable_round_nonneg hr
        have hget2 := startNewRound_index hnn hget
        have hmap : (s.players.map Player.id).get?
            (s.round.toNat % s.players.length) = some d.id := by
          rw [List.get?_map, hget2]
          rfl
        rw [reachable_players_id hr, reachable_players_length hr] at hmap
        show (ps.map Player.id).get? ((s.round + 1 - 1).toNat % ps.length) =
          some d.id
        have hidx : s.round + 1 - 1 = s.round := by ring
        rw [hidx]
        exact hmap
  | updateGameState_step s st hr ih => exact ih

/-! ### TimerService

The timer store maps session ids to timer entries (`TimerService.timers`).
Callback invocations (`onTick t` / `onComplete`) are recorded as an explicit
event list; the once-per-second `setInterval` callback becomes the step
function `timerStep`, and `runTimer` fires it a given number of times. -/

/-- A `TimerData` entry (duration, remaining time, active flag); the
callbacks are externalised as events and the interval handle is implicit in
the store membership. -/
structure TimerData where
  duration : Int
  timeRemaining : Int
  isActive : Bool
deriving DecidableEq, Repr

/-- A recorded callback invocation. -/
inductive TimerEvent where
  | tick (timeRemaining : Int)
  | complete
deriving DecidableEq, Repr

/-- The timer store: one entry per session id at most. -/
abbrev TimerStore : Type := List (String × TimerData)

/-- `TimerService.stopTimer`: deactivate, clear the interval and delete the
entry; idempotent and safe when no entry exists. -/
def stopTimer (ts : TimerStore) (sid : String) : TimerStore :=
  List.filter (fun e => !(e.1 == sid)) ts

/-- Result of a `startTimer` call: the store after the call (the source
mutates the store even when it subsequently throws), the thrown error if
any, and the callback invocations performed synchronously. -/
structure StartTimerResult where
  timers : TimerStore
  result : Except GameError Unit
  events : List TimerEvent

/-- `TimerService.startTimer`: first stops any existing timer for the id,
then validates the duration (`InvalidDuration` for non-positive values —
note the validation happens *after* the implicit stop), then records the
entry and immediately invokes `onTick(duration)`. -/
def startTimer (ts : TimerStore) (sid : String) (duration : Int) :
    StartTimerResult :=
  if duration ≤ 0 then
    { timers := stopTimer ts sid
      result := Except.error GameError.invalidDuration
      events := [] }
  else
    { timers := (sid, ⟨duration, duration, true⟩) :: stopTimer ts sid
      result := Except.ok ()
      events := [TimerEvent.tick duration] }

/-- Replace the entry for `sid` (the interval callback mutates the stored
`TimerData` in place). -/
def setTimer (ts : TimerStore) (sid : String) (td : TimerData) : TimerStore :=
  List.map (fun e => if e.1 == sid then (e.1, td) else e) ts

/-- One firing of the `setInterval` callback for `sid`: no effect if the
entry is gone (interval cleared) or inactive; otherwise decrement; at zero
invoke `onTick 0` then `onComplete` and self-stop, else invoke `onTick`. -/
def timerStep (ts : TimerStore) (sid : String) :
    TimerStore × List TimerEvent :=
  match List.lookup sid ts with
  | none => (ts, [])
  | some td =>
      if ¬td.isActive then (ts, [])
      else if td.timeRemaining - 1 ≤ 0 then
        (stopTimer ts sid, [TimerEvent.tick 0, TimerEvent.complete])
      else
        (setTimer ts sid { td with timeRemaining := td.timeRemaining - 1 },
          [TimerEvent.tick (td.timeRemaining - 1)])

/-- Fire the interval callback `n` times, collecting events in order. -/
def runTimer (ts : TimerStore) (sid : String) :
    Nat → TimerStore × List TimerEvent
  | 0 => (ts, [])
  | n + 1 =>
      ((runTimer (timerStep ts sid).1 sid n).1,
        (timerStep ts sid).2 ++ (runTimer (timerStep ts sid).1 sid n).2)

theorem lookup_stopTimer_self (ts : TimerStore) (sid : String) :
    List.lookup sid (stopTimer ts sid) = none := by
  induction ts with
  | nil => rfl
  | cons e rest ih =>
      rcases e with ⟨k, v⟩
      by_cases h : k = sid
      · have hkeep : stopTimer ((k, v) :: rest) sid = stopTimer rest sid := by
          simp [stopTimer, List.filter_cons, h]
        rw [hkeep]
        exact ih
      · have hkeep : stopTimer ((k, v) :: rest) sid =
            (k, v) :: stopTimer rest sid := by
          simp [stopTimer, List.filter_cons, h]
        rw [hkeep]
        have hbeq : (sid == k) = false := by
          rw [beq_eq_false_iff_ne]
          exact Ne.symm h
        simp only [List.lookup, hbeq]
        exact ih

theorem runTimer_absent {ts : TimerStore} {sid : String}
    (h : List.lookup sid ts = none) :
    ∀ n, runTimer ts sid n = (ts, []) := by
  intro n
  induction n with
  | zero => rfl
  | succ n ih =>
      have hstep : timerStep ts sid = (ts, []) := by
        unfold timerStep
        rw [h]
      show ((runTimer (timerStep ts sid).1 sid n).1,
        (timerStep ts sid).2 ++ (runTimer (timerStep ts sid).1 sid n).2) =
        (ts, [])
      rw [hstep]
      rw [ih]
      rfl

/-- After `stopTimer`, no further interval firing for that session produces
any callback: in particular `onComplete` never fires. -/
theorem runTimer_after_stop (ts : TimerStore) (sid : String) (n : Nat) :
    runTimer (stopTimer ts sid) sid n = (stopTimer ts sid, []) :=
  runTimer_absent (lookup_stopTimer_self ts sid) n

/-- `runTimer` splits over sums of step counts. -/
theorem runTimer_add (ts : TimerStore) (sid : String) (a b : Nat) :
    runTimer ts sid (a + b) =
      ((runTimer (runTimer ts sid a).1 sid b).1,
        (runTimer ts sid a).2 ++ (runTimer (runTimer ts sid a).1 sid b).2) := by
  induction a generalizing ts with
  | zero =>
      rw [Nat.zero_add]
      have h0 : runTimer ts sid 0 = (ts, []) := rfl
      rw [h0]
      simp
  | succ a ih =>
      have hsa : a + 1 + b = (a + b) + 1 := by omega
      rw [hsa]
      have h1 : runTimer ts sid ((a + b) + 1) =
          ((runTimer (timerStep ts sid).1 sid (a + b)).1,
            (timerStep ts sid).2 ++
              (runTimer (timerStep ts sid).1 sid (a + b)).2) := rfl
      have h2 : runTimer ts sid (a + 1) =
          ((runTimer (timerStep ts sid).1 sid a).1,
            (timerStep ts sid).2 ++
              (runTimer (timerStep ts sid).1 sid a).2) := rfl
      rw [h1, ih ((timerStep ts sid).1), h2]
      simp [List.append_assoc]

/-! ### Concrete fixtures

A two-player game with the default configuration, driven through
`initializeGame → startGame → selectWord → submitGuess`; a one-round game
driven to `GAME_OVER`; and a three-player ten-round game driven to round 4.
`exceptSession` extracts the successful result of an engine call. -/

def exceptSession (e : Except GameError GameSession) : GameSession :=
  match e with
  | Except.ok s => s
  | Except.error _ => default

def alice : Player := ⟨"p1", "Alice", 0, false⟩

def bob : Player := ⟨"p2", "Bob", 0, false⟩

def carol : Player := ⟨"p3", "Carol", 0, false⟩

def twoPlayers : List Player := [alice, bob]

def threePlayers : List Player := [alice, bob, carol]

/-- The documented default configuration (maxTime 60, maxRounds 5). -/
def defaultConfig : GameConfig := ⟨60, 5, Difficulty.medium, true⟩

def oneRoundConfig : GameConfig := ⟨60, 1, Difficulty.medium, true⟩

def tenRoundConfig : GameConfig := ⟨60, 10, Difficulty.medium, true⟩

def catWord : GameWord := ⟨"w1", "cat", Difficulty.medium, "animals", []⟩

def game0 : GameSession :=
  exceptSession (initializeGame defaultConfig twoPlayers "session_1")

def game1 : GameSession := exceptSession (startGame game0)

def game2 : GameSession := selectWord game1 catWord

def game3 : GameSession :=
  match submitGuess game2 "p2" "cat" with
  | Except.ok (_, s) => s
  | Except.error _ => default

/-- `selectWord` issued directly on the freshly initialised session. -/
def gameWordNoDrawer : GameSession := selectWord game0 catWord

def over0 : GameSession :=
  exceptSession (initializeGame oneRoundConfig twoPlayers "session_2")

def over1 : GameSession := exceptSession (startGame over0)

def overDone : GameSession := exceptSession (endRound over1)

def r0 : GameSession :=
  exceptSession (initializeGame tenRoundConfig threePlayers "session_3")

def r1 : GameSession := exceptSession (startGame r0)

def r2 : GameSession := exceptSession (endRound r1)

def r3 : GameSession := exceptSession (endRound r2)

def r4 : GameSession := exceptSession (endRound r3)

theorem reach_game0 : ReachableFrom defaultConfig twoPlayers "session_1" game0 :=
  ReachableFrom.init game0 (by decide)

theorem reach_game1 : ReachableFrom defaultConfig twoPlayers "session_1" game1 :=
  ReachableFrom.startGame_step game0 game1 reach_game0 (by decide)

theorem reach_gameWordNoDrawer :
    ReachableFrom defaultConfig twoPlayers "session_1" gameWordNoDrawer :=
  ReachableFrom.selectWord_step game0 catWord reach_game0

theorem reach_overDone :
    ReachableFrom oneRoundConfig twoPlayers "session_2" overDone :=
  ReachableFrom.endRound_step over1 overDone
    (ReachableFrom.startGame_step over0 over1
      (ReachableFrom.init over0 (by decide)) (by decide))
    (by decide)

theorem reach_r4 : ReachableFrom tenRoundConfig threePlayers "session_3" r4 :=
  ReachableFrom.endRound_step r3 r4
    (ReachableFrom.endRound_step r2 r3
      (ReachableFrom.endRound_step r1 r2
        (ReachableFrom.startGame_step r0 r1
          (ReachableFrom.init r0 (by decide)) (by decide))
        (by decide))
      (by decide))
    (by decide)

/-- Modelled from the spec (§4.3 Scoring Policy): `guessPoints` with the
clamp the spec describes — "negative or zero `maxTime` yields `base=100`
with zero bonus".  Present only to compare the implementation against the
spec's words; the engine's own function is `calculateGuessPoints`. -/
def specGuessPoints (timeRemaining maxTime : Int) : Int :=
  if maxTime ≤ 0 then 100
  else 100 + ⌊(timeRemaining : ℚ) / (maxTime : ℚ) * 50⌋

/-! ### Claim theorems -/

/-- C1: evaluation of the engine at the failing input.  In a `DRAWING`
session with a current word and drawer, a correct guess by the non-drawer
returns `true`, sets `CORRECT_GUESS` and adds
`guessPoints(timeRemaining, maxTime) = 150` to the guesser's entry in the
stored players list — but the drawer's 50-point award lands only on the
detached `currentDrawer` record: the drawer's entry in the stored players
list keeps score 0 instead of increasing by 50. -/
theorem claim_C1 :
    game2.state = GameState.drawing ∧
    game2.currentWord = some catWord ∧
    game2.currentDrawer = some alice ∧
    validateGuess "cat" catWord.word = true ∧
    guessPointsFor game2.timeRemaining game2.maxTime = 150 ∧
    submitGuess game2 "p2" "cat" = Except.ok (true, game3) ∧
    game3.state = GameState.correctGuess ∧
    game3.players.map (fun p => (p.id, p.score)) = [("p1", 0), ("p2", 150)] ∧
    game3.currentDrawer = some ⟨"p1", "Alice", 50, false⟩ := by
  decide

/-- C2 (counterexample): in the session reached by
`initializeGame → startGame`, the stored `currentDrawer` is non-null but is
not an element of the stored players list (its `isDrawing` flag is the
pre-round value `false`, while the list entry with the same id has `true`). -/
theorem claim_C2_cex :
    ReachableFrom defaultConfig twoPlayers "session_1" game1 ∧
    game1.currentDrawer = some alice ∧
    alice ∉ game1.players :=
  ⟨reach_game1, by decide, by decide⟩

/-- C2 (amended): in every session reachable through the engine's
operations, the stored `currentDrawer` is either null or shares its id with
some element of the stored players list (it need not be that element
itself). -/
theorem claim_C2 {cfg : GameConfig} {ps : List Player} {sid : String}
    {s : GameSession} (h : ReachableFrom cfg ps sid s) :
    ∀ d, s.currentDrawer = some d → ∃ p ∈ s.players, p.id = d.id := by
  intro d hd
  rcases List.mem_map.mp (drawer_id_invariant h d hd) with ⟨p, hp, hid⟩
  exact ⟨p, hp, hid⟩

/-- C2 witness: the amended claim evaluated on the concrete two-player
session after `startGame`. -/
theorem claim_C2_witness : ∃ p ∈ game1.players, p.id = alice.id :=
  claim_C2 reach_game1 alice (by decide)

/-- C3 (counterexample): a session driven to `GAME_OVER` by `endRound`
(round = maxRounds = 1) accepts a subsequent `selectWord` call, which
succeeds and moves the state back to `DRAWING` — `GAME_OVER` is not
terminal under `selectWord`. -/
theorem claim_C3_cex :
    ReachableFrom oneRoundConfig twoPlayers "session_2" overDone ∧
    overDone.state = GameState.gameOver ∧
    (selectWord overDone catWord).state = GameState.drawing ∧
    (selectWord overDone catWord).state ≠ GameState.gameOver :=
  ⟨reach_overDone, by decide, by decide, by decide⟩

/-- C3 (amended): on a `GAME_OVER` session, `startGame` always fails with
`InvalidStateTransition` (it requires `WAITING`), but `selectWord` — which
checks only session existence — succeeds, stores the word, and moves the
session to `DRAWING`, so the session does leave `GAME_OVER` through
`selectWord`. -/
theorem claim_C3 (s : GameSession) (w : GameWord)
    (h : s.state = GameState.gameOver) :
    startGame s = Except.error GameError.invalidStateTransition ∧
    (selectWord s w).state = GameState.drawing ∧
    (selectWord s w).currentWord = some w := by
  refine ⟨?_, rfl, rfl⟩
  unfold startGame
  rw [h]
  rfl

/-- C3 witness: the amended claim evaluated on the concrete `GAME_OVER`
session. -/
theorem claim_C3_witness :
    startGame overDone = Except.error GameError.invalidStateTransition ∧
    (selectWord overDone catWord).state = GameState.drawing ∧
    (selectWord overDone catWord).currentWord = some catWord :=
  claim_C3 overDone catWord (by decide)

/-- C4 (counterexample): the engine's scoring function has no clamp.  At
`(60, -60)` it returns 50, not the claimed 100; at `(-240, 60)` it returns
the negative value -100, contradicting "never returns a negative value". -/
theorem claim_C4_cex :
    calculateGuessPoints 60 (-60) = some 50 ∧ ((50 : Int) ≠ 100) ∧
    calculateGuessPoints (-240) 60 = some (-100) ∧ ((-100 : Int) < 0) := by
  decide

/-- C4 (amended): for positive `maxTime` the engine's
`calculateGuessPoints` agrees with the spec's formula
`100 + floor((timeRemaining/maxTime) * 50)` (in particular 125, 100, 150 at
the cited points); but there is no clamping: `maxTime = 0` produces a
non-finite JavaScript value (no integer result), and for negative `maxTime`
the unclamped formula is applied, so the result can differ from 100 and can
be negative. -/
theorem claim_C4 (timeRemaining maxTime : Int) :
    (0 < maxTime → calculateGuessPoints timeRemaining maxTime =
      some (specGuessPoints timeRemaining maxTime)) ∧
    (maxTime = 0 → calculateGuessPoints timeRemaining maxTime = none) ∧
    calculateGuessPoints 30 60 = some 125 ∧
    calculateGuessPoints 0 60 = some 100 ∧
    calculateGuessPoints 60 60 = some 150 := by
  refine ⟨?_, ?_, by decide, by decide, by decide⟩
  · intro h
    have hne : maxTime ≠ 0 := by omega
    unfold calculateGuessPoints specGuessPoints
    rw [if_neg hne, if_neg (not_le.mpr h)]
    exact congrArg some (guessPointsFor_eq_floor _ _ hne)
  · intro h
    subst h
    rfl

/-- C4 witness: the amended claim evaluated at `(30, 60)` and `(17, 0)`. -/
theorem claim_C4_witness :
    calculateGuessPoints 30 60 = some (specGuessPoints 30 60) ∧
    calculateGuessPoints 17 0 = none :=
  ⟨(claim_C4 30 60).1 (by decide), (claim_C4 17 0).2.1 rfl⟩

/-- C5 (counterexample): after `initializeGame → startGame` the current
word is null yet one player is flagged `isDrawing`; conversely, a
`selectWord` issued on the freshly initialised (round 0) session stores a
word while no player is flagged.  The drawing flag tracks round starts, not
word selection. -/
theorem claim_C5_cex :
    (ReachableFrom defaultConfig twoPlayers "session_1" game1 ∧
      game1.currentWord = none ∧
      game1.players.countP (fun p => p.isDrawing) = 1) ∧
    (ReachableFrom defaultConfig twoPlayers "session_1" gameWordNoDrawer ∧
      gameWordNoDrawer.currentWord = some catWord ∧
      gameWordNoDrawer.players.countP (fun p => p.isDrawing) = 0) :=
  ⟨⟨reach_game1, by decide, by decide⟩,
    ⟨reach_gameWordNoDrawer, by decide, by decide⟩⟩

/-- C5 (amended): in every reachable session of a game whose initial
players carry pairwise-distinct ids, exactly one player has
`isDrawing = true` once a round has started (`round ≥ 1`) and none while
`round = 0` — independently of whether a current word is set. -/
theorem claim_C5 {cfg : GameConfig} {ps : List Player} {sid : String}
    {s : GameSession} (hnd : (ps.map Player.id).Nodup)
    (h : ReachableFrom cfg ps sid s) :
    s.players.countP (fun p => p.isDrawing) = if s.round = 0 then 0 else 1 :=
  isDrawing_count_invariant hnd h

/-- C5 witness: the amended claim evaluated on the concrete two-player
session after `startGame`. -/
theorem claim_C5_witness :
    game1.players.countP (fun p => p.isDrawing) =
      if game1.round = 0 then 0 else 1 :=
  claim_C5 (by decide) reach_game1

/-- C6: `initializeGame` with at least 2 players produces a `WAITING`
round-0 session with all scores zero, no drawing flags, no drawer, no word
and `timeRemaining = maxTime`; with fewer than 2 players it fails with
`InsufficientPlayers`. -/
theorem claim_C6 (cfg : GameConfig) (ps : List Player) (sid : String) :
    (2 ≤ ps.length → ∃ s, initializeGame cfg ps sid = Except.ok s ∧
      s.state = GameState.waiting ∧ s.round = 0 ∧
      (∀ p ∈ s.players, p.score = 0 ∧ p.isDrawing = false) ∧
      s.currentDrawer = none ∧ s.currentWord = none ∧
      s.timeRemaining = cfg.maxTime) ∧
    (ps.length < 2 →
      initializeGame cfg ps sid =
        Except.error GameError.insufficientPlayers) := by
  constructor
  · intro h2
    have hne : ¬(ps.length < 2) := by omega
    refine ⟨{ id := sid
              players := ps.map fun p => { p with score := 0, isDrawing := false }
              currentWord := none
              currentDrawer := none
              state := GameState.waiting
              timeRemaining := cfg.maxTime
              maxTime := cfg.maxTime
              round := 0
              maxRounds := cfg.maxRounds }, ?_, rfl, rfl, ?_, rfl, rfl, rfl⟩
    · unfold initializeGame
      rw [if_neg hne]
    · intro p hp
      rcases List.mem_map.mp hp with ⟨q, hq, rfl⟩
      exact ⟨rfl, rfl⟩
  · intro h2
    unfold initializeGame
    rw [if_pos h2]

/-- C6 witness: the claim evaluated at the default config with two players,
and at a single-player list. -/
theorem claim_C6_witness :
    (∃ s, initializeGame defaultConfig twoPlayers "session_1" = Except.ok s ∧
      s.state = GameState.waiting ∧ s.round = 0 ∧
      (∀ p ∈ s.players, p.score = 0 ∧ p.isDrawing = false) ∧
      s.currentDrawer = none ∧ s.currentWord = none ∧
      s.timeRemaining = defaultConfig.maxTime) ∧
    initializeGame defaultConfig [alice] "session_1" =
      Except.error GameError.insufficientPlayers :=
  ⟨(claim_C6 defaultConfig twoPlayers "session_1").1 (by decide),
    (claim_C6 defaultConfig [alice] "session_1").2 (by decide)⟩

/-- C7: in every reachable session with `round = N ≥ 1`, the stored drawer
exists and its id is `players[(N-1) mod players.length].id` in original
join order. -/
theorem claim_C7 {cfg : GameConfig} {ps : List Player} {sid : String}
    {s : GameSession} (h : ReachableFrom cfg ps sid s)
    (hround : 1 ≤ s.round) :
    ∃ d, s.currentDrawer = some d ∧
      (ps.map Player.id).get? ((s.round - 1).toNat % ps.length) =
        some d.id :=
  drawer_rotation_invariant h hround

/-- C7 witness: the claim evaluated on the three-player game advanced to
round 4, whose drawer is `players[(4-1) mod 3] = players[0]`. -/
theorem claim_C7_witness :
    ∃ d, r4.currentDrawer = some d ∧
      (threePlayers.map Player.id).get?
        ((r4.round - 1).toNat % threePlayers.length) = some d.id :=
  claim_C7 reach_r4 (by decide)

/-- C8: a guess that fails validation, submitted in a `DRAWING` session
with a current word by a known non-drawer player, returns `false` and
leaves the stored session entirely unchanged. -/
theorem claim_C8 {s : GameSession} {pid g : String} {w : GameWord}
    {p : Player}
    (hstate : s.state = GameState.drawing)
    (hword : s.currentWord = some w)
    (hplayer : s.players.find? (fun q => q.id == pid) = some p)
    (hnotdrawer : isDrawerGuess s pid = false)
    (hwrong : validateGuess g w.word = false) :
    submitGuess s pid g = Except.ok (false, s) := by
  simp [submitGuess, hstate, hword, hplayer, hnotdrawer, hwrong]

/-- C8 witness: the wrong guess "dog" against the word "cat" in the
concrete two-player session. -/
theorem claim_C8_witness :
    submitGuess game2 "p2" "dog" = Except.ok (false, game2) :=
  @claim_C8 game2 "p2" "dog" catWord ⟨"p2", "Bob", 0, false⟩
    (by decide) (by decide) (by decide) (by decide) (by decide)

/-- The timer started with duration 5 used by C9. -/
def fiveTimer : StartTimerResult := startTimer [] "sess" 5

/-- C9: a timer started with duration 5 ticks 5,4,3,2,1,0 in order (the
first tick synchronously at start) followed by exactly one completion
event, after which further interval firings produce nothing; and a `stop`
issued before expiry prevents the completion callback from ever firing. -/
theorem claim_C9 :
    fiveTimer.result = Except.ok () ∧
    fiveTimer.events = [TimerEvent.tick 5] ∧
    (runTimer fiveTimer.timers "sess" 5).2 =
      [TimerEvent.tick 4, TimerEvent.tick 3, TimerEvent.tick 2,
        TimerEvent.tick 1, TimerEvent.tick 0, TimerEvent.complete] ∧
    (fiveTimer.events ++ (runTimer fiveTimer.timers "sess" 5).2).count
      TimerEvent.complete = 1 ∧
    (∀ m : Nat, (runTimer fiveTimer.timers "sess" (5 + m)).2 =
      [TimerEvent.tick 4, TimerEvent.tick 3, TimerEvent.tick 2,
        TimerEvent.tick 1, TimerEvent.tick 0, TimerEvent.complete]) ∧
    (∀ k : Nat, k ≤ 4 → ∀ n : Nat,
      (runTimer (stopTimer (runTimer fiveTimer.timers "sess" k).1 "sess")
        "sess" n).2.count TimerEvent.complete = 0) := by
  refine ⟨by decide, by decide, by decide, by decide, ?_, ?_⟩
  · intro m
    calc (runTimer fiveTimer.timers "sess" (5 + m)).2
        = (runTimer fiveTimer.timers "sess" 5).2 ++
            (runTimer (runTimer fiveTimer.timers "sess" 5).1 "sess" m).2 := by
          rw [runTimer_add]
      _ = (runTimer fiveTimer.timers "sess" 5).2 ++
            (runTimer ([] : TimerStore) "sess" m).2 := by
          rw [show (runTimer fiveTimer.timers "sess" 5).1 = ([] : TimerStore)
            from by decide]
      _ = [TimerEvent.tick 4, TimerEvent.tick 3, TimerEvent.tick 2,
            TimerEvent.tick 1, TimerEvent.tick 0, TimerEvent.complete] := by
          rw [runTimer_absent
            (show List.lookup "sess" ([] : TimerStore) = none from rfl) m]
          decide
  · intro k hk n
    rw [runTimer_after_stop]
    rfl

/-- C9 witness: the quantified parts of C9 evaluated at one extra firing
after expiry and at a stop after 2 of the 5 seconds. -/
theorem claim_C9_witness :
    (runTimer fiveTimer.timers "sess" (5 + 1)).2 =
      [TimerEvent.tick 4, TimerEvent.tick 3, TimerEvent.tick 2,
        TimerEvent.tick 1, TimerEvent.tick 0, TimerEvent.complete] ∧
    (runTimer (stopTimer (runTimer fiveTimer.timers "sess" 2).1 "sess")
      "sess" 7).2.count TimerEvent.complete = 0 :=
  ⟨claim_C9.2.2.2.2.1 1, claim_C9.2.2.2.2.2 2 (by decide) 7⟩

/-- C10: `startTimer` with a non-positive duration on a session id that has
an active timer fails with `InvalidDuration`, but only after the implicit
stop has already removed the previous timer: after the failed call no timer
exists for that id. -/
theorem claim_C10 (ts : TimerStore) (sid : String) (td : TimerData)
    (d : Int) (hentry : List.lookup sid ts = some td)
    (hact : td.isActive = true) (hdur : d ≤ 0) :
    (startTimer ts sid d).result = Except.error GameError.invalidDuration ∧
    List.lookup sid (startTimer ts sid d).timers = none := by
  unfold startTimer
  rw [if_pos hdur]
  exact ⟨rfl, lookup_stopTimer_self ts sid⟩

/-- C10 witness: the claim evaluated on a store holding one active 5-second
timer and a `startTimer` call with duration 0. -/
theorem claim_C10_witness :
    (startTimer [("sess", ⟨5, 5, true⟩)] "sess" 0).result =
      Except.error GameError.invalidDuration ∧
    List.lookup "sess"
      (startTimer [("sess", ⟨5, 5, true⟩)] "sess" 0).timers = none :=
  claim_C10 [("sess", ⟨5, 5, true⟩)] "sess" ⟨5, 5, true⟩ 0 rfl rfl
    (by decide)

end Pictionary
